import Mathlib

/-!
Verification of the giveaway bot (`bot.py`): a shallow embedding of its
SQLite-backed data model, draw lifecycle, winner selection and Mini-App
signature validator, with theorems settling the specification claims.

Modelling conventions:
* SQLite tables are lists of row structures; the conditional `UPDATE ... WHERE`
  statements become list maps/counts, with the affected-row count (`rowcount`)
  returned explicitly.  SQLite serializes writers, so concurrent statements are
  modelled as an arbitrary interleaving sequence.
* Timestamps (ISO-8601 strings in the code, compared chronologically) are
  modelled as naturals with the same order.
* `random.sample(pool, k)` is modelled as `(perm pool).take k` and
  `random.shuffle(bucket)` as `perm bucket`, for an arbitrary
  permutation-producing function `perm` supplied as a parameter.
* Side effects towards Telegram (posting the results message, notifying each
  winner) are recorded as an explicit action trace.
-/

/-- Lexicographic comparison of character lists by code point; this is how
Python compares `str` keys when sorting. -/
def charsLe : List Char → List Char → Bool
  | [], _ => true
  | _ :: _, [] => false
  | a :: as, b :: bs => if a = b then charsLe as bs else decide (a.toNat < b.toNat)

/-- Python string `<=` (code-point lexicographic), used by `list.sort` on keys. -/
def strLe (a b : String) : Bool := charsLe a.data b.data

/-- Decimal value of a digit list, or `none` if empty or not all digits. -/
def digitsVal (cs : List Char) : Option Nat :=
  if cs.isEmpty then none
  else if cs.all (fun c => c.isDigit) then
    some (cs.foldl (fun n c => n * 10 + (c.toNat - 48)) 0)
  else none

/-- Python `int(s)` on a decimal literal with an optional sign, returning
`none` where CPython raises `ValueError`. -/
def pyInt (s : String) : Option Int :=
  match s.data with
  | [] => none
  | c :: cs =>
    if c = '-' then (digitsVal cs).map (fun n => -(n : Int))
    else if c = '+' then (digitsVal cs).map (fun n => (n : Int))
    else (digitsVal (c :: cs)).map (fun n => (n : Int))

/-- A row of the `giveaways` table (the columns the draw logic reads). -/
structure Giveaway where
  id : Nat
  title : String
  winners_count : Nat
  type : String
  end_at_utc : Nat
  status : String
deriving DecidableEq

/-- A Telegram user as seen by `add_entry` (aiogram `User`). -/
structure TgUser where
  id : Nat
  username : String
  first_name : String
deriving DecidableEq

/-- A row of the `entries` table; `PRIMARY KEY (giveaway_id, user_id)`. -/
structure Entry where
  giveaway_id : Nat
  user_id : Nat
  username : String
  first_name : String
deriving DecidableEq

/-- A row of the `referrals` table; `PRIMARY KEY (giveaway_id, referred_id)`. -/
structure Referral where
  giveaway_id : Nat
  referrer_id : Nat
  referred_id : Nat
deriving DecidableEq

/-- A row of the `winners` table. -/
structure WinnerRow where
  giveaway_id : Nat
  user_id : Nat
  place : Nat
deriving DecidableEq

/-- The SQLite database state. -/
structure DB where
  giveaways : List Giveaway
  entries : List Entry
  referrals : List Referral
  winners : List WinnerRow
deriving DecidableEq

/-- Column names of the `giveaways` table: the `CREATE TABLE` statement in
`INIT_SQL` plus the soft migrations in `init_db` (all of which re-add columns
already present in `INIT_SQL`). -/
def giveawaysColumns : List String :=
  ["id", "title", "description", "winners_count", "type", "start_at_utc",
   "end_at_utc", "required_channels", "target_chat", "post_chat_id",
   "post_message_id", "discussion_chat_id", "thread_message_id", "status",
   "created_by", "created_at_utc", "photo_file_id"]

/-- `fetch_giveaway`: `SELECT * FROM giveaways WHERE id=?`, first row. -/
def fetch_giveaway (db : DB) (gid : Nat) : Option Giveaway :=
  db.giveaways.find? (fun g => g.id == gid)

/-- Relation used to model `ORDER BY end_at_utc ASC`. -/
def endAtAsc (a b : Giveaway) : Prop := a.end_at_utc ≤ b.end_at_utc

instance : DecidableRel endAtAsc := fun a b => Nat.decLe a.end_at_utc b.end_at_utc

/-- `list_active_giveaways`:
`SELECT * FROM giveaways WHERE status='scheduled' ORDER BY end_at_utc ASC`. -/
def list_active_giveaways (db : DB) : List Giveaway :=
  List.insertionSort endAtAsc (db.giveaways.filter (fun g => g.status == "scheduled"))

/-- `add_entry`: `INSERT OR IGNORE INTO entries ...` keyed on the primary key
`(giveaway_id, user_id)`; an existing row is left untouched. -/
def add_entry (db : DB) (gid : Nat) (user : TgUser) : DB :=
  if db.entries.any (fun e => e.giveaway_id == gid && e.user_id == user.id) then db
  else { db with entries := db.entries ++ [⟨gid, user.id, user.username, user.first_name⟩] }

/-- `has_entry`: `SELECT 1 FROM entries WHERE giveaway_id=? AND user_id=?`. -/
def has_entry (db : DB) (gid uid : Nat) : Bool :=
  db.entries.any (fun e => e.giveaway_id == gid && e.user_id == uid)

/-- `count_entries`: `SELECT COUNT(*) FROM entries WHERE giveaway_id=?`. -/
def count_entries (db : DB) (gid : Nat) : Nat :=
  (db.entries.filter (fun e => e.giveaway_id == gid)).length

/-- `get_entries`: `(user_id, username, first_name)` rows for one giveaway. -/
def get_entries (db : DB) (gid : Nat) : List (Nat × String × String) :=
  (db.entries.filter (fun e => e.giveaway_id == gid)).map
    (fun e => (e.user_id, e.username, e.first_name))

/-- `save_winners`: delete this giveaway's winner rows, insert the new list
with places `1..k`, and set the giveaway status to `'finished'` — all in one
transaction. -/
def save_winners (db : DB) (gid : Nat) (winners : List Nat) : DB :=
  { db with
    winners := db.winners.filter (fun w => !(w.giveaway_id == gid)) ++
      winners.enum.map (fun p => ⟨gid, p.2, p.1 + 1⟩),
    giveaways := db.giveaways.map
      (fun g => if g.id == gid then { g with status := "finished" } else g) }

/-- Relation used to model `ORDER BY place ASC`. -/
def placeAsc (a b : WinnerRow) : Prop := a.place ≤ b.place

instance : DecidableRel placeAsc := fun a b => Nat.decLe a.place b.place

/-- `get_winners`: winner user ids of a giveaway ordered by place. -/
def get_winners (db : DB) (gid : Nat) : List Nat :=
  (List.insertionSort placeAsc
    (db.winners.filter (fun w => w.giveaway_id == gid))).map (fun w => w.user_id)

/-- Relation used to model `ORDER BY c DESC` on `(referrer_id, count)` pairs. -/
def countDesc (a b : Nat × Nat) : Prop := b.2 ≤ a.2

instance : DecidableRel countDesc := fun a b => Nat.decLe b.2 a.2

/-- `referral_top`: distinct referrers of a giveaway with their referred
counts, ordered by count descending (`GROUP BY referrer_id ORDER BY c DESC`). -/
def referral_top (db : DB) (gid : Nat) : List (Nat × Nat) :=
  (List.insertionSort countDesc
    (((db.referrals.filter (fun r => r.giveaway_id == gid)).map
        (fun r => r.referrer_id)).dedup.map
      (fun u => (u, (db.referrals.filter (fun r => r.giveaway_id == gid)).countP
        (fun r => r.referrer_id == u)))))

/-- Theorems below refer to this predicate: the `entries` primary key
invariant, keys `(giveaway_id, user_id)` pairwise distinct. -/
def entriesPK (es : List Entry) : Prop :=
  (es.map (fun e => (e.giveaway_id, e.user_id))).Nodup

instance (es : List Entry) : Decidable (entriesPK es) := by
  unfold entriesPK; infer_instance

/-- The atomic claim inside `run_draw`:
`UPDATE giveaways SET status='drawing' WHERE id=? AND status='scheduled'`.
Returns the updated table together with `cur.rowcount`, the number of rows the
statement affected. -/
def claimDraw (gs : List Giveaway) (gid : Nat) : List Giveaway × Nat :=
  (gs.map (fun g =>
      if g.id == gid && g.status == "scheduled" then { g with status := "drawing" } else g),
   gs.countP (fun g => g.id == gid && g.status == "scheduled"))

/-- Observable steps of a draw: the successful claim, the two writes of
`save_winners`, and the messaging side effects of `announce_results`. -/
inductive DrawAct where
  | claimed : DrawAct
  | persistWinners : List Nat → DrawAct
  | setFinished : DrawAct
  | post : String → DrawAct
  | notify : Nat → DrawAct
deriving DecidableEq

/-- Recognizes the results-message side effect. -/
def isPost : DrawAct → Bool
  | DrawAct.post _ => true
  | _ => false

/-- The winners-block text of `announce_results` when there were no
participants. -/
def noParticipantsText : String :=
  "Не было участников. Победителей нет."

/-- One winner line of the results message
(`<a href="tg://user?id=UID">Победитель #I</a>`). -/
def winnerLine (i uid : Nat) : String :=
  "<a href=\"tg://user?id=" ++ toString uid ++ "\">Победитель #" ++ toString i ++ "</a>"

/-- The winners block of the results message: enumerated winner lines, or the
no-participants text for an empty list. -/
def winnersTextOf (winners : List Nat) : String :=
  if winners.isEmpty then noParticipantsText
  else String.intercalate "\n" (winners.enum.map (fun p => winnerLine (p.1 + 1) p.2))

/-- The results message of `announce_results`.  The deadline line is pure
timestamp formatting (pytz/strftime) and is not modelled; the title and the
winners block are. -/
def resultsText (g : Giveaway) (winners : List Nat) : String :=
  "<b>ИТОГИ: " ++ g.title ++ "</b>\n\n" ++ winnersTextOf winners

/-- `announce_results`: posts the results message to the campaign chat, then
best-effort direct-messages each winner.  Always performs both side effects
and always returns `None` in the code — there is no gate inside it. -/
def announce_results (g : Giveaway) (winners : List Nat) : List DrawAct :=
  DrawAct.post (resultsText g winners) :: winners.map DrawAct.notify

/-- Tail of every successful draw in `run_draw`: `save_winners` (delete/insert
winner rows, then set status `'finished'`) followed by `announce_results`. -/
def drawFinish (db : DB) (g : Giveaway) (winners : List Nat) : DB × List DrawAct :=
  (save_winners db g.id winners,
   DrawAct.claimed :: DrawAct.persistWinners winners :: DrawAct.setFinished ::
     announce_results g winners)

/-- One step of `grouped.setdefault(cnt, []).append(uid)` over a `(uid, cnt)`
pair: append to the existing bucket of that count, or add a fresh bucket at
the end (dict insertion order). -/
def bucketStep (acc : List (Nat × List Nat)) (p : Nat × Nat) : List (Nat × List Nat) :=
  if acc.any (fun b => b.1 == p.2) then
    acc.map (fun b => if b.1 == p.2 then (b.1, b.2 ++ [p.1]) else b)
  else acc ++ [(p.2, [p.1])]

/-- The dict built by `grouped.setdefault(cnt, []).append(uid)`: buckets keyed
by referred-count, in key insertion order, each bucket in append order. -/
def referralBuckets (top : List (Nat × Nat)) : List (Nat × List Nat) :=
  top.foldl bucketStep []

/-- Relation used to model `sorted(grouped.keys(), reverse=True)`. -/
def natDesc (a b : Nat) : Prop := b ≤ a

instance : DecidableRel natDesc := fun a b => Nat.decLe b a

/-- Lookup of `grouped[cnt]` (the key is present whenever `cnt` came from the
key list). -/
def bucketOf (buckets : List (Nat × List Nat)) (cnt : Nat) : List Nat :=
  ((buckets.find? (fun b => b.1 == cnt)).map (fun b => b.2)).getD []

/-- The selection loop of the referral draw: walk the counts in descending
order, shuffle each tied bucket, and extend `selected` by at most the number
of winners still needed, stopping once `winners_count` is reached. -/
def fillLoop (k : Nat) (buckets : List (Nat × List Nat)) (shuffle : List Nat → List Nat) :
    List Nat → List Nat → List Nat
  | selected, [] => selected
  | selected, cnt :: rest =>
    let bucket := shuffle (bucketOf buckets cnt)
    let need := k - selected.length
    if need = 0 then selected
    else fillLoop k buckets shuffle
      (selected ++ (if bucket.length > need then bucket.take need else bucket)) rest

/-- The referral-type winner selection of `run_draw`: group referrers by
count, walk count buckets in descending order with intra-bucket shuffling, and
truncate to `winners_count`. -/
def referralSelect (top : List (Nat × Nat)) (k : Nat) (shuffle : List Nat → List Nat) :
    List Nat :=
  (fillLoop k (referralBuckets top) shuffle []
    (List.insertionSort natDesc ((referralBuckets top).map (fun b => b.1)))).take k

/-- `run_draw`: attempt the atomic claim; on failure return silently with no
side effects; on success compute winners for the campaign type, persist them,
and announce.  `perm` models `random.sample`/`random.shuffle` (an arbitrary
permutation), `hasBoost` models the draw-time result of
`user_has_valid_boost`. -/
def run_draw (db : DB) (gid : Nat) (perm : List Nat → List Nat) (hasBoost : Nat → Bool) :
    DB × List DrawAct :=
  let claimed := claimDraw db.giveaways gid
  let db1 : DB := { db with giveaways := claimed.1 }
  if claimed.2 = 0 then (db1, [])
  else
    match fetch_giveaway db1 gid with
    | none => (db1, [DrawAct.claimed])
    | some g =>
      if g.type == "button" || g.type == "comments" then
        let pool := (get_entries db1 gid).map (fun e => e.1)
        if pool.isEmpty then drawFinish db1 g []
        else drawFinish db1 g ((perm pool).take (min g.winners_count pool.length))
      else if g.type == "referrals" then
        let top := referral_top db1 gid
        if top.isEmpty then drawFinish db1 g []
        else drawFinish db1 g (referralSelect top g.winners_count perm)
      else if g.type == "boosts" then
        let pool := ((get_entries db1 gid).map (fun e => e.1)).filter hasBoost
        if pool.isEmpty then drawFinish db1 g []
        else drawFinish db1 g ((perm pool).take (min g.winners_count (min 200 pool.length)))
      else drawFinish db1 g []

/-- A sequence of repeated claim attempts (SQLite serializes the concurrent
`UPDATE` statements); returns the final table and how many attempts affected a
row. -/
def iterClaims (gs : List Giveaway) (gid : Nat) : Nat → List Giveaway × Nat
  | 0 => (gs, 0)
  | n + 1 =>
    let step := claimDraw gs gid
    let rest := iterClaims step.1 gid n
    (rest.1, (if step.2 = 0 then 0 else 1) + rest.2)

/-- A sequence of repeated `run_draw` invocations on the same campaign,
accumulating the action trace. -/
def iterDraws (gid : Nat) (perm : List Nat → List Nat) (hasBoost : Nat → Bool) :
    DB → Nat → DB × List DrawAct
  | db, 0 => (db, [])
  | db, n + 1 =>
    let step := run_draw db gid perm hasBoost
    let rest := iterDraws gid perm hasBoost step.1 n
    (rest.1, step.2 ++ rest.2)

/-- What `restore_schedules` decides per campaign: run the draw immediately, or
re-arm a timer for the deadline. -/
inductive RestoreAction where
  | drawNow : Nat → RestoreAction
  | armTimer : Nat → Nat → RestoreAction
deriving DecidableEq

/-- `restore_schedules`: walk `list_active_giveaways()` (scheduled campaigns
only); a campaign whose deadline has passed gets an immediate `run_draw`, the
rest get their draw job re-armed at the deadline. -/
def restore_schedules (db : DB) (now : Nat) : List RestoreAction :=
  (list_active_giveaways db).map (fun g =>
    if g.end_at_utc ≤ now then RestoreAction.drawNow g.id
    else RestoreAction.armTimer g.id g.end_at_utc)

/-- The accumulator of the pair-scanning loop of `validate_webapp_init`. -/
structure InitScan where
  gotHash : Option String
  filtered : List (String × String)
  userJson : Option String
  authDate : Option Int
deriving DecidableEq

/-- One iteration of the `for k, v in pairs` loop of `validate_webapp_init`:
remember the signature value, collect every other pair, remember the last
`user` value, and remember the last `auth_date` value parsed as an integer
(`None` when unparsable). -/
def scanPair (st : InitScan) (kv : String × String) : InitScan :=
  let st1 := if kv.1 == "hash" then { st with gotHash := some kv.2 }
             else { st with filtered := st.filtered ++ [kv] }
  let st2 := if kv.1 == "user" then { st1 with userJson := some kv.2 } else st1
  if kv.1 == "auth_date" then { st2 with authDate := pyInt kv.2 } else st2

/-- The full scanning loop over the parsed query pairs. -/
def initScan (pairs : List (String × String)) : InitScan :=
  pairs.foldl scanPair ⟨none, [], none, none⟩

/-- The key order of `filtered.sort(key=lambda x: x[0])`. -/
def pairKeyLe (a b : String × String) : Prop := strLe a.1 b.1 = true

instance : DecidableRel pairKeyLe := fun a b => instDecidableEqBool (strLe a.1 b.1) true

/-- The canonical string: the non-signature pairs sorted lexicographically by
key and joined as newline-separated `key=value`. -/
def dataCheckString (filtered : List (String × String)) : String :=
  String.intercalate "\n"
    ((List.insertionSort pairKeyLe filtered).map (fun kv => kv.1 ++ "=" ++ kv.2))

/-- `validate_webapp_init` on the parsed key/value pairs of `initData`.

`calcHash` abstracts `_calc_webapp_hash` (HMAC-SHA256 over the canonical
string, keyed by SHA-256 of the bot token, hex-encoded) applied at the fixed
shared secret; `hmac.compare_digest` is constant-time equality, so comparing
for string equality is the faithful functional model.  `parseUserId` abstracts
`int(json.loads(urllib.parse.unquote(user_json))['id'])`, returning `none`
where that chain raises.  `now` is `time.time()` in whole seconds.  Returns
`(user_id or none, reason, auth_date)` exactly as the code does, with the
Python truthiness tests on `got_hash` and `user_json` (absent or empty string
both fail) spelled out. -/
def validate_webapp_init (pairs : List (String × String)) (calcHash : String → String)
    (parseUserId : String → Option Int) (now : Int) :
    Option Int × String × Option Int :=
  let st := initScan pairs
  match st.gotHash with
  | none => (none, "no_hash", st.authDate)
  | some h =>
    if h = "" then (none, "no_hash", st.authDate)
    else if calcHash (dataCheckString st.filtered) ≠ h then
      (none, "bad_signature", st.authDate)
    else if (match st.authDate with
             | some ad => decide (now - ad > 180)
             | none => false) then
      (none, "stale", st.authDate)
    else
      match st.userJson with
      | none => (none, "bad_user", st.authDate)
      | some uj =>
        if uj = "" then (none, "bad_user", st.authDate)
        else
          match parseUserId uj with
          | some uid => (some uid, "ok", st.authDate)
          | none => (none, "bad_user", st.authDate)

theorem add_entry_mem_noop (db : DB) (gid : Nat) (u : TgUser)
    (h : db.entries.any (fun e => e.giveaway_id == gid && e.user_id == u.id) = true) :
    add_entry db gid u = db := by
  unfold add_entry
  rw [if_pos h]

theorem mem_entries_add_entry (db : DB) (gid : Nat) (u : TgUser) :
    ((add_entry db gid u).entries.any
      (fun e => e.giveaway_id == gid && e.user_id == u.id)) = true := by
  unfold add_entry
  split
  · assumption
  · rw [List.any_append]
    simp

theorem add_entry_pk_preserved (db : DB) (gid : Nat) (u : TgUser)
    (h : entriesPK db.entries) : entriesPK (add_entry db gid u).entries := by
  unfold add_entry
  split
  · exact h
  · next hmem =>
    unfold entriesPK at h ⊢
    simp only [List.map_append, List.map_cons, List.map_nil]
    rw [List.nodup_append]
    refine ⟨h, List.nodup_singleton _, ?_⟩
    intro p hp
    simp only [List.mem_map] at hp
    obtain ⟨e, he, rfl⟩ := hp
    simp only [List.mem_singleton]
    intro hEq
    have hk : e.giveaway_id = gid ∧ e.user_id = u.id :=
      ⟨congrArg Prod.fst hEq, congrArg Prod.snd hEq⟩
    apply hmem
    rw [List.any_eq_true]
    exact ⟨e, he, by simp [hk.1, hk.2]⟩

/-- Claim C9: entry insertion is idempotent: entries are unique per
`(campaign_id, user_id)` — the primary-key invariant is preserved by insertion
— and a repeated join by the same user in the same campaign is a silent no-op:
the database (hence the stored entry row) is unchanged and the entry count is
unchanged. -/
theorem C9_add_entry_idempotent (db : DB) (gid : Nat) (u u2 : TgUser)
    (hsame : u2.id = u.id) :
    add_entry (add_entry db gid u) gid u2 = add_entry db gid u ∧
    count_entries (add_entry (add_entry db gid u) gid u2) gid =
      count_entries (add_entry db gid u) gid ∧
    (entriesPK db.entries → entriesPK (add_entry db gid u).entries) := by
  have hmem : (add_entry db gid u).entries.any
      (fun e => e.giveaway_id == gid && e.user_id == u2.id) = true := by
    rw [hsame]
    exact mem_entries_add_entry db gid u
  have hnoop : add_entry (add_entry db gid u) gid u2 = add_entry db gid u :=
    add_entry_mem_noop (add_entry db gid u) gid u2 hmem
  exact ⟨hnoop, by rw [hnoop], fun h => add_entry_pk_preserved db gid u h⟩

/-- Witness for C9 at a concrete database: a second join with the same user id
leaves the state and the count unchanged. -/
theorem C9_add_entry_idempotent_witness :
    (add_entry (add_entry ⟨[], [], [], []⟩ 1 ⟨3, "alice", "A"⟩) 1 ⟨3, "bob", "B"⟩ =
      add_entry ⟨[], [], [], []⟩ 1 ⟨3, "alice", "A"⟩) ∧
    (count_entries (add_entry (add_entry ⟨[], [], [], []⟩ 1 ⟨3, "alice", "A"⟩) 1
        ⟨3, "bob", "B"⟩) 1 =
      count_entries (add_entry ⟨[], [], [], []⟩ 1 ⟨3, "alice", "A"⟩) 1) ∧
    entriesPK (add_entry ⟨[], [], [], []⟩ 1 ⟨3, "alice", "A"⟩).entries :=
  ⟨(C9_add_entry_idempotent ⟨[], [], [], []⟩ 1 ⟨3, "alice", "A"⟩ ⟨3, "bob", "B"⟩ rfl).1,
   (C9_add_entry_idempotent ⟨[], [], [], []⟩ 1 ⟨3, "alice", "A"⟩ ⟨3, "bob", "B"⟩ rfl).2.1,
   (C9_add_entry_idempotent ⟨[], [], [], []⟩ 1 ⟨3, "alice", "A"⟩ ⟨3, "bob", "B"⟩ rfl).2.2
     (by decide)⟩

theorem claimDraw_not_scheduled (gs : List Giveaway) (gid : Nat)
    (h : ∀ g ∈ gs, g.id = gid → g.status ≠ "scheduled") :
    claimDraw gs gid = (gs, 0) := by
  unfold claimDraw
  simp only [Prod.mk.injEq]
  constructor
  case left =>
    show gs.map _ = gs
    conv_rhs => rw [← List.map_id gs]
    apply List.map_congr_left
    intro g hg
    have : (g.id == gid && g.status == "scheduled") = false := by
      by_cases hid : g.id = gid
      · have := h g hg hid
        simp [this]
      · simp [hid]
    rw [this]
    rfl
  case right =>
    show gs.countP _ = 0
    rw [List.countP_eq_zero]
    intro g hg
    simp only [Bool.and_eq_true, beq_iff_eq]
    rintro ⟨hid, hst⟩
    exact h g hg hid hst

theorem claimDraw_success (gs : List Giveaway) (gid : Nat)
    (hpk : gs.countP (fun g => g.id == gid) = 1)
    (hsched : ∀ g ∈ gs, g.id = gid → g.status = "scheduled") :
    (claimDraw gs gid).2 = 1 ∧
    (∀ g ∈ (claimDraw gs gid).1, g.id = gid → g.status = "drawing") ∧
    (claimDraw gs gid).1.countP (fun g => g.id == gid) = 1 := by
  refine ⟨?_, ?_, ?_⟩
  · show gs.countP _ = 1
    rw [← hpk]
    apply List.countP_congr
    intro g hg
    by_cases hid : g.id = gid
    · have := hsched g hg hid
      simp [hid, this]
    · simp [hid]
  · intro g' hg' hid'
    simp only [claimDraw] at hg'
    rw [List.mem_map] at hg'
    obtain ⟨g, hg, rfl⟩ := hg'
    by_cases hc : (g.id == gid && g.status == "scheduled") = true
    · rw [if_pos hc]
    · rw [if_neg hc] at hid' ⊢
      exfalso
      apply hc
      have := hsched g hg hid'
      simp [hid', this]
  · show ((gs.map _).countP _) = 1
    rw [List.countP_map, ← hpk]
    apply List.countP_congr
    intro g hg
    by_cases hc : (g.id == gid && g.status == "scheduled") = true
    · simp only [Function.comp_apply, if_pos hc]
    · simp only [Function.comp_apply, if_neg hc]

theorem iterClaims_noop (gs : List Giveaway) (gid : Nat) (n : Nat)
    (h : ∀ g ∈ gs, g.id = gid → g.status ≠ "scheduled") :
    iterClaims gs gid n = (gs, 0) := by
  induction n with
  | zero => rfl
  | succ n ih =>
    unfold iterClaims
    rw [claimDraw_not_scheduled gs gid h]
    simp [ih]

/-- Claim C1: on a campaign whose unique row is `scheduled`, any sequence of
repeated (serialized concurrent) invocations of the draw-claim update has
exactly one invocation affecting a row; after the success the row is
`drawing`, and all later attempts affect zero rows and leave the table
unchanged (silent no-ops). -/
theorem C1_claim_exactly_once (gs : List Giveaway) (gid n : Nat)
    (hpk : gs.countP (fun g => g.id == gid) = 1)
    (hsched : ∀ g ∈ gs, g.id = gid → g.status = "scheduled") :
    (iterClaims gs gid (n + 1)).2 = 1 ∧
    (∀ g ∈ (iterClaims gs gid (n + 1)).1, g.id = gid → g.status = "drawing") ∧
    iterClaims (claimDraw gs gid).1 gid n = ((claimDraw gs gid).1, 0) := by
  obtain ⟨hrc, hdrawing, _⟩ := claimDraw_success gs gid hpk hsched
  have hnotsched : ∀ g ∈ (claimDraw gs gid).1, g.id = gid → g.status ≠ "scheduled" := by
    intro g hg hid
    rw [hdrawing g hg hid]
    intro hcontra
    exact absurd hcontra (by decide)
  have hrest := iterClaims_noop (claimDraw gs gid).1 gid n hnotsched
  refine ⟨?_, ?_, hrest⟩
  · show (if (claimDraw gs gid).2 = 0 then 0 else 1) +
        (iterClaims (claimDraw gs gid).1 gid n).2 = 1
    rw [hrest, hrc]
    simp
  · show ∀ g ∈ (iterClaims (claimDraw gs gid).1 gid n).1, g.id = gid → g.status = "drawing"
    rw [hrest]
    exact hdrawing

/-- Witness for C1: a one-campaign table, three claim attempts — exactly one
succeeds, the row ends up `drawing`, and the two later attempts are no-ops. -/
theorem C1_claim_exactly_once_witness :
    ([⟨1, "T", 1, "button", 10, "scheduled"⟩] : List Giveaway).countP
        (fun g => g.id == 1) = 1 ∧
    (iterClaims [⟨1, "T", 1, "button", 10, "scheduled"⟩] 1 3).2 = 1 ∧
    (∀ g ∈ (iterClaims [⟨1, "T", 1, "button", 10, "scheduled"⟩] 1 3).1,
      g.id = 1 → g.status = "drawing") ∧
    iterClaims (claimDraw [⟨1, "T", 1, "button", 10, "scheduled"⟩] 1).1 1 2 =
      ((claimDraw [⟨1, "T", 1, "button", 10, "scheduled"⟩] 1).1, 0) :=
  ⟨by decide,
   C1_claim_exactly_once [⟨1, "T", 1, "button", 10, "scheduled"⟩] 1 2 (by decide)
     (by decide)⟩

theorem run_draw_not_scheduled (db : DB) (gid : Nat) (perm : List Nat → List Nat)
    (hb : Nat → Bool)
    (h : ∀ g ∈ db.giveaways, g.id = gid → g.status ≠ "scheduled") :
    run_draw db gid perm hb = (db, []) := by
  simp only [run_draw]
  rw [claimDraw_not_scheduled db.giveaways gid h]
  simp

theorem save_winners_finished (db : DB) (gid : Nat) (ws : List Nat) :
    ∀ g ∈ (save_winners db gid ws).giveaways, g.id = gid → g.status = "finished" := by
  intro g' hg' hid'
  simp only [save_winners] at hg'
  rw [List.mem_map] at hg'
  obtain ⟨g, hg, rfl⟩ := hg'
  by_cases hc : (g.id == gid) = true
  · rw [if_pos hc]
  · rw [if_neg hc] at hid' ⊢
    exact absurd (beq_iff_eq.mpr hid') hc

theorem fetch_after_claim (db : DB) (gid : Nat)
    (hpk : db.giveaways.countP (fun g => g.id == gid) = 1)
    (hsched : ∀ g ∈ db.giveaways, g.id = gid → g.status = "scheduled") :
    ∃ g0 ∈ db.giveaways, g0.id = gid ∧
      fetch_giveaway { db with giveaways := (claimDraw db.giveaways gid).1 } gid =
        some { g0 with status := "drawing" } := by
  have hsome : (db.giveaways.find? (fun g => g.id == gid)).isSome := by
    rw [List.find?_isSome]
    have hpos : 0 < db.giveaways.countP (fun g => g.id == gid) := by omega
    rw [List.countP_pos_iff] at hpos
    exact hpos
  obtain ⟨g0, hfind⟩ := Option.isSome_iff_exists.mp hsome
  have hmem : g0 ∈ db.giveaways := List.mem_of_find?_eq_some hfind
  have hp := List.find?_some hfind
  have hid : g0.id = gid := by simpa using hp
  refine ⟨g0, hmem, hid, ?_⟩
  simp only [fetch_giveaway, claimDraw]
  rw [List.find?_map]
  have hpred : ((fun g : Giveaway => g.id == gid) ∘
      (fun g : Giveaway => if (g.id == gid && g.status == "scheduled") = true then
        { g with status := "drawing" } else g)) = (fun g : Giveaway => g.id == gid) := by
    funext g
    by_cases hc : (g.id == gid && g.status == "scheduled") = true
    · simp only [Function.comp_apply, if_pos hc]
    · simp only [Function.comp_apply, if_neg hc]
  rw [hpred, hfind]
  have hcond : (g0.id == gid && g0.status == "scheduled") = true := by
    have := hsched g0 hmem hid
    simp [hid, this]
  rw [Option.map_some', if_pos hcond]

theorem run_draw_success (db : DB) (gid : Nat) (perm : List Nat → List Nat)
    (hb : Nat → Bool)
    (hpk : db.giveaways.countP (fun g => g.id == gid) = 1)
    (hsched : ∀ g ∈ db.giveaways, g.id = gid → g.status = "scheduled") :
    ∃ g0 ∈ db.giveaways, g0.id = gid ∧ ∃ winners : List Nat,
      run_draw db gid perm hb =
        (save_winners { db with giveaways := (claimDraw db.giveaways gid).1 } gid winners,
         DrawAct.claimed :: DrawAct.persistWinners winners :: DrawAct.setFinished ::
           announce_results { g0 with status := "drawing" } winners) := by
  obtain ⟨hrc, _, _⟩ := claimDraw_success db.giveaways gid hpk hsched
  obtain ⟨g0, hmem, hid, hfetch⟩ := fetch_after_claim db gid hpk hsched
  refine ⟨g0, hmem, hid, ?_⟩
  subst hid
  simp only [run_draw, hrc, hfetch]
  rw [if_neg (by omega : ¬ (1 : Nat) = 0)]
  repeat' split
  all_goals exact ⟨_, rfl⟩

theorem iterDraws_noop (gid : Nat) (perm : List Nat → List Nat) (hb : Nat → Bool)
    (db : DB) (n : Nat)
    (h : ∀ g ∈ db.giveaways, g.id = gid → g.status ≠ "scheduled") :
    iterDraws gid perm hb db n = (db, []) := by
  induction n with
  | zero => rfl
  | succ n ih =>
    unfold iterDraws
    rw [run_draw_not_scheduled db gid perm hb h]
    simp [ih]

theorem countP_isPost_announce (g : Giveaway) (ws : List Nat) :
    (announce_results g ws).countP isPost = 1 := by
  unfold announce_results
  rw [List.countP_cons_of_pos _ _ (by rfl)]
  have : (ws.map DrawAct.notify).countP isPost = 0 := by
    rw [List.countP_eq_zero]
    intro a ha
    rw [List.mem_map] at ha
    obtain ⟨u, _, rfl⟩ := ha
    simp [isPost]
  rw [this]

theorem run_draw_posts_once (db : DB) (gid : Nat) (perm : List Nat → List Nat)
    (hb : Nat → Bool)
    (hpk : db.giveaways.countP (fun g => g.id == gid) = 1)
    (hsched : ∀ g ∈ db.giveaways, g.id = gid → g.status = "scheduled") :
    ((run_draw db gid perm hb).2).countP isPost = 1 ∧
    (∀ g ∈ (run_draw db gid perm hb).1.giveaways, g.id = gid → g.status = "finished") := by
  obtain ⟨g0, hmem, hid, ws, heq⟩ := run_draw_success db gid perm hb hpk hsched
  rw [heq]
  constructor
  · show (DrawAct.claimed :: DrawAct.persistWinners ws :: DrawAct.setFinished ::
      announce_results { g0 with status := "drawing" } ws).countP isPost = 1
    rw [List.countP_cons_of_neg _ _ (by simp [isPost]),
        List.countP_cons_of_neg _ _ (by simp [isPost]),
        List.countP_cons_of_neg _ _ (by simp [isPost])]
    exact countP_isPost_announce _ ws
  · exact save_winners_finished _ gid ws

theorem iterDraws_posts_once (db : DB) (gid : Nat) (perm : List Nat → List Nat)
    (hb : Nat → Bool) (n : Nat)
    (hpk : db.giveaways.countP (fun g => g.id == gid) = 1)
    (hsched : ∀ g ∈ db.giveaways, g.id = gid → g.status = "scheduled") :
    ((iterDraws gid perm hb db (n + 1)).2).countP isPost = 1 := by
  obtain ⟨hpost, hfin⟩ := run_draw_posts_once db gid perm hb hpk hsched
  have hnot : ∀ g ∈ (run_draw db gid perm hb).1.giveaways, g.id = gid →
      g.status ≠ "scheduled" := by
    intro g hg hid
    rw [hfin g hg hid]
    intro hcontra
    exact absurd hcontra (by decide)
  simp only [iterDraws]
  rw [iterDraws_noop gid perm hb _ n hnot]
  rw [List.countP_append, hpost]
  rfl

/-- Claim C2 counterexample: the schema has no `announced` column at all, and
`announce_results` is gated by nothing — invoking it twice performs the
results-message side effect twice, not once. -/
theorem C2_counterexample :
    "announced" ∉ giveawaysColumns ∧
    ((announce_results ⟨1, "T", 1, "button", 10, "drawing"⟩ [] ++
      announce_results ⟨1, "T", 1, "button", 10, "drawing"⟩ []).countP isPost = 2) := by
  constructor
  · decide
  · rfl

/-- Claim C2 as amended: there is no per-campaign `announced` flag (no such
column exists), and `announce_results` itself performs its side effects
unconditionally on every call; the announcement nevertheless happens exactly
once per campaign because the only call site is `run_draw`, whose
`scheduled → drawing` claim succeeds exactly once — across any number of
sequential draw invocations the results message is posted exactly once. -/
theorem C2_announce_once_via_claim (db : DB) (gid : Nat) (perm : List Nat → List Nat)
    (hb : Nat → Bool) (n : Nat)
    (hpk : db.giveaways.countP (fun g => g.id == gid) = 1)
    (hsched : ∀ g ∈ db.giveaways, g.id = gid → g.status = "scheduled") :
    ((iterDraws gid perm hb db (n + 1)).2).countP isPost = 1 ∧
    "announced" ∉ giveawaysColumns :=
  ⟨iterDraws_posts_once db gid perm hb n hpk hsched, by decide⟩

/-- Witness for C2 as amended: one scheduled campaign, three sequential draw
invocations — the results message is posted exactly once. -/
theorem C2_announce_once_via_claim_witness :
    ((iterDraws 1 (fun l => l) (fun _ => false)
        ⟨[⟨1, "T", 1, "button", 10, "scheduled"⟩], [⟨1, 7, "u", "f"⟩], [], []⟩ 3).2).countP
      isPost = 1 ∧
    "announced" ∉ giveawaysColumns :=
  C2_announce_once_via_claim
    ⟨[⟨1, "T", 1, "button", 10, "scheduled"⟩], [⟨1, 7, "u", "f"⟩], [], []⟩ 1
    (fun l => l) (fun _ => false) 2 (by decide) (by decide)

/-- Claim C7 counterexample: in a concrete draw the status-to-`finished`
write occurs in the trace strictly before the announcement is posted — the
first three steps already contain `setFinished` and no `post`, so the
campaign is `finished` while its announcement is still unpublished. -/
theorem C7_counterexample :
    DrawAct.setFinished ∈
      ((run_draw ⟨[⟨1, "T", 1, "button", 10, "scheduled"⟩], [⟨1, 7, "u", "f"⟩], [], []⟩
        1 (fun l => l) (fun _ => false)).2.take 3) ∧
    (((run_draw ⟨[⟨1, "T", 1, "button", 10, "scheduled"⟩], [⟨1, 7, "u", "f"⟩], [], []⟩
        1 (fun l => l) (fun _ => false)).2.take 3).countP isPost = 0) ∧
    (∀ g ∈ (save_winners ⟨[⟨1, "T", 1, "drawing", 10, "drawing"⟩], [], [], []⟩ 1 [7]).giveaways,
      g.status = "finished") := by
  refine ⟨by decide, by rfl, by decide⟩

/-- Claim C7 as amended: winners are persisted first, and the status is set to
`finished` in the same `save_winners` transaction, before the announcement is
posted; only then is the results message published.  (The campaign therefore
is in status `finished` while the announcement is not yet published — the
spec's ordering of Finished after the announcement does not hold.) -/
theorem C7_persist_finish_then_announce (db : DB) (gid : Nat)
    (perm : List Nat → List Nat) (hb : Nat → Bool)
    (hpk : db.giveaways.countP (fun g => g.id == gid) = 1)
    (hsched : ∀ g ∈ db.giveaways, g.id = gid → g.status = "scheduled") :
    ∃ winners text,
      (run_draw db gid perm hb).2 =
        DrawAct.claimed :: DrawAct.persistWinners winners :: DrawAct.setFinished ::
          DrawAct.post text :: winners.map DrawAct.notify ∧
      (∀ g ∈ (run_draw db gid perm hb).1.giveaways, g.id = gid → g.status = "finished") := by
  obtain ⟨g0, hmem, hid, ws, heq⟩ := run_draw_success db gid perm hb hpk hsched
  refine ⟨ws, resultsText { g0 with status := "drawing" } ws, ?_, ?_⟩
  · rw [heq]
    rfl
  · rw [heq]
    exact save_winners_finished _ gid ws

/-- Witness for C7 as amended at a concrete database. -/
theorem C7_persist_finish_then_announce_witness :
    ∃ winners text,
      (run_draw ⟨[⟨2, "W", 1, "button", 10, "scheduled"⟩], [⟨2, 9, "u", "f"⟩], [], []⟩
          2 (fun l => l) (fun _ => false)).2 =
        DrawAct.claimed :: DrawAct.persistWinners winners :: DrawAct.setFinished ::
          DrawAct.post text :: winners.map DrawAct.notify ∧
      (∀ g ∈ (run_draw ⟨[⟨2, "W", 1, "button", 10, "scheduled"⟩], [⟨2, 9, "u", "f"⟩], [], []⟩
          2 (fun l => l) (fun _ => false)).1.giveaways, g.id = 2 → g.status = "finished") :=
  C7_persist_finish_then_announce
    ⟨[⟨2, "W", 1, "button", 10, "scheduled"⟩], [⟨2, 9, "u", "f"⟩], [], []⟩ 2
    (fun l => l) (fun _ => false) (by decide) (by decide)

/-- Claim C3 counterexample: a campaign stuck in status `drawing` (crashed
after the claim) with its deadline already past is not scanned by startup
recovery at all, and re-invoking the draw on it is a silent no-op — nothing
recomputes, announces or finishes it. -/
theorem C3_counterexample :
    restore_schedules ⟨[⟨1, "T", 1, "button", 10, "drawing"⟩], [⟨1, 7, "u", "f"⟩], [], []⟩
        100 = [] ∧
    run_draw ⟨[⟨1, "T", 1, "button", 10, "drawing"⟩], [⟨1, 7, "u", "f"⟩], [], []⟩
        1 (fun l => l) (fun _ => false) =
      (⟨[⟨1, "T", 1, "button", 10, "drawing"⟩], [⟨1, 7, "u", "f"⟩], [], []⟩, []) := by
  refine ⟨by rfl, by decide⟩

/-- Claim C3 as amended: startup recovery scans only campaigns in status
`scheduled` (not `drawing`): every restore action belongs to a scheduled
campaign, every scheduled campaign gets exactly the action its deadline
dictates (immediate draw if past, a re-armed timer if future), and invoking
the draw on a campaign already in `drawing` affects zero rows and returns with
no side effects — a crash between claim and finish is not recovered. -/
theorem C3_recovery_scans_scheduled_only (db : DB) (now : Nat)
    (perm : List Nat → List Nat) (hb : Nat → Bool) :
    (∀ a ∈ restore_schedules db now,
      ∃ g ∈ db.giveaways, g.status = "scheduled" ∧
        ((g.end_at_utc ≤ now ∧ a = RestoreAction.drawNow g.id) ∨
         (¬ g.end_at_utc ≤ now ∧ a = RestoreAction.armTimer g.id g.end_at_utc))) ∧
    (∀ g ∈ db.giveaways, g.status = "scheduled" →
      (g.end_at_utc ≤ now → RestoreAction.drawNow g.id ∈ restore_schedules db now) ∧
      (¬ g.end_at_utc ≤ now →
        RestoreAction.armTimer g.id g.end_at_utc ∈ restore_schedules db now)) ∧
    (∀ gid, (∀ g ∈ db.giveaways, g.id = gid → g.status = "drawing") →
      run_draw db gid perm hb = (db, [])) := by
  have hmemsort : ∀ g : Giveaway,
      (g ∈ List.insertionSort endAtAsc
        (db.giveaways.filter (fun x => x.status == "scheduled"))) ↔
      (g ∈ db.giveaways.filter (fun x => x.status == "scheduled")) := by
    intro g
    exact (List.perm_insertionSort endAtAsc _).mem_iff
  refine ⟨?_, ?_, ?_⟩
  · intro a ha
    unfold restore_schedules list_active_giveaways at ha
    rw [List.mem_map] at ha
    obtain ⟨g, hg, rfl⟩ := ha
    rw [hmemsort, List.mem_filter] at hg
    refine ⟨g, hg.1, by simpa using hg.2, ?_⟩
    by_cases hend : g.end_at_utc ≤ now
    · exact Or.inl ⟨hend, by rw [if_pos hend]⟩
    · exact Or.inr ⟨hend, by rw [if_neg hend]⟩
  · intro g hg hsched
    have hmem : g ∈ list_active_giveaways db := by
      unfold list_active_giveaways
      rw [hmemsort, List.mem_filter]
      exact ⟨hg, by simp [hsched]⟩
    constructor
    · intro hend
      unfold restore_schedules
      rw [List.mem_map]
      exact ⟨g, hmem, by rw [if_pos hend]⟩
    · intro hend
      unfold restore_schedules
      rw [List.mem_map]
      exact ⟨g, hmem, by rw [if_neg hend]⟩
  · intro gid h
    apply run_draw_not_scheduled
    intro g hg hid
    rw [h g hg hid]
    intro hcontra
    exact absurd hcontra (by decide)

/-- Witness for C3 as amended: a mixed table — the past-deadline scheduled
campaign is drawn now, the future one re-armed, and a draw attempt on the
`drawing` campaign is a silent no-op. -/
theorem C3_recovery_scans_scheduled_only_witness :
    RestoreAction.drawNow 1 ∈ restore_schedules
      ⟨[⟨1, "A", 1, "button", 10, "scheduled"⟩, ⟨2, "B", 1, "button", 900, "scheduled"⟩,
        ⟨3, "C", 1, "button", 10, "drawing"⟩], [], [], []⟩ 100 ∧
    RestoreAction.armTimer 2 900 ∈ restore_schedules
      ⟨[⟨1, "A", 1, "button", 10, "scheduled"⟩, ⟨2, "B", 1, "button", 900, "scheduled"⟩,
        ⟨3, "C", 1, "button", 10, "drawing"⟩], [], [], []⟩ 100 ∧
    run_draw ⟨[⟨1, "A", 1, "button", 10, "scheduled"⟩, ⟨2, "B", 1, "button", 900, "scheduled"⟩,
        ⟨3, "C", 1, "button", 10, "drawing"⟩], [], [], []⟩ 3 (fun l => l) (fun _ => false) =
      (⟨[⟨1, "A", 1, "button", 10, "scheduled"⟩, ⟨2, "B", 1, "button", 900, "scheduled"⟩,
        ⟨3, "C", 1, "button", 10, "drawing"⟩], [], [], []⟩, []) :=
  ⟨((C3_recovery_scans_scheduled_only
      ⟨[⟨1, "A", 1, "button", 10, "scheduled"⟩, ⟨2, "B", 1, "button", 900, "scheduled"⟩,
        ⟨3, "C", 1, "button", 10, "drawing"⟩], [], [], []⟩ 100
      (fun l => l) (fun _ => false)).2.1 ⟨1, "A", 1, "button", 10, "scheduled"⟩
      (by decide) (by decide)).1 (by decide),
   ((C3_recovery_scans_scheduled_only
      ⟨[⟨1, "A", 1, "button", 10, "scheduled"⟩, ⟨2, "B", 1, "button", 900, "scheduled"⟩,
        ⟨3, "C", 1, "button", 10, "drawing"⟩], [], [], []⟩ 100
      (fun l => l) (fun _ => false)).2.1 ⟨2, "B", 1, "button", 900, "scheduled"⟩
      (by decide) (by decide)).2 (by decide),
   (C3_recovery_scans_scheduled_only
      ⟨[⟨1, "A", 1, "button", 10, "scheduled"⟩, ⟨2, "B", 1, "button", 900, "scheduled"⟩,
        ⟨3, "C", 1, "button", 10, "drawing"⟩], [], [], []⟩ 100
      (fun l => l) (fun _ => false)).2.2 3 (by decide)⟩

theorem get_entries_of_none (db : DB) (gid : Nat)
    (h : ∀ e ∈ db.entries, e.giveaway_id ≠ gid) :
    get_entries db gid = [] := by
  unfold get_entries
  rw [List.filter_eq_nil_iff.mpr ?_, List.map_nil]
  intro e he
  simp only [beq_iff_eq]
  exact h e he

theorem get_winners_save_empty (db : DB) (gid : Nat) :
    get_winners (save_winners db gid []) gid = [] := by
  unfold get_winners save_winners
  simp only [List.enum_nil, List.map_nil, List.append_nil, List.filter_filter]
  rw [List.filter_eq_nil_iff.mpr ?_]
  · rfl
  · intro w _
    cases h : (w.giveaway_id == gid) <;> simp [h]

/-- Claim C8 counterexample: there is no `announced` flag in the schema to
flip; what an empty-pool draw actually does is persist an empty winners list,
set the status to `finished` and post the no-participants results message. -/
theorem C8_counterexample :
    "announced" ∉ giveawaysColumns ∧
    (run_draw ⟨[⟨1, "T", 2, "button", 10, "scheduled"⟩], [], [], []⟩
        1 (fun l => l) (fun _ => false)).2 =
      [DrawAct.claimed, DrawAct.persistWinners [], DrawAct.setFinished,
       DrawAct.post (resultsText ⟨1, "T", 2, "button", 10, "drawing"⟩ [])] := by
  exact ⟨by decide, by rfl⟩

/-- The referral-type pool is empty when the campaign has no referral rows:
`referral_top` returns the empty list. -/
theorem referral_top_of_none (db : DB) (gid : Nat)
    (h : ∀ r ∈ db.referrals, r.giveaway_id ≠ gid) :
    referral_top db gid = [] := by
  unfold referral_top
  have hf : db.referrals.filter (fun r => r.giveaway_id == gid) = [] := by
    rw [List.filter_eq_nil_iff]
    intro r hr
    simp only [beq_iff_eq]
    exact h r hr
  rw [hf]
  rfl

/-- The boosts-type pool is empty when no entrant of the campaign passes the
draw-time boost check. -/
theorem boost_pool_of_none (db : DB) (gid : Nat) (hb : Nat → Bool)
    (h : ∀ e ∈ db.entries, e.giveaway_id = gid → hb e.user_id = false) :
    ((get_entries db gid).map (fun e => e.1)).filter hb = [] := by
  rw [List.filter_eq_nil_iff]
  intro u hu
  simp only [get_entries, List.map_map, List.mem_map, Function.comp_apply] at hu
  obtain ⟨e, he, rfl⟩ := hu
  rw [List.mem_filter] at he
  have hgid : e.giveaway_id = gid := by simpa using he.2
  rw [h e he.1 hgid]
  simp

/-- Claim C8 as amended: a draw on a campaign whose pool is empty — zero
entrants for the button and comments types, zero referrers for the referral
type, or no draw-time-eligible boosted entrant for the boosts type (the
unknown-type fallthrough behaves the same) — persists an empty winners list
and posts the "no participants" results message; there is no `announced` flag
that gets flipped — single publication is enforced by the
`scheduled → drawing` claim, so across any number of sequential draw
invocations the message is posted exactly once. -/
theorem C8_empty_pool_draw (db : DB) (gid : Nat) (perm : List Nat → List Nat)
    (hb : Nat → Bool) (n : Nat)
    (hpk : db.giveaways.countP (fun g => g.id == gid) = 1)
    (hsched : ∀ g ∈ db.giveaways, g.id = gid → g.status = "scheduled")
    (hempty : ∀ g ∈ db.giveaways, g.id = gid →
      ((g.type = "button" ∨ g.type = "comments") →
        ∀ e ∈ db.entries, e.giveaway_id ≠ gid) ∧
      (g.type = "referrals" → ∀ r ∈ db.referrals, r.giveaway_id ≠ gid) ∧
      (g.type = "boosts" → ∀ e ∈ db.entries, e.giveaway_id = gid →
        hb e.user_id = false)) :
    ∃ g0 ∈ db.giveaways, g0.id = gid ∧
      run_draw db gid perm hb =
        (save_winners { db with giveaways := (claimDraw db.giveaways gid).1 } gid [],
         [DrawAct.claimed, DrawAct.persistWinners [], DrawAct.setFinished,
          DrawAct.post (resultsText { g0 with status := "drawing" } [])]) ∧
      get_winners (run_draw db gid perm hb).1 gid = [] ∧
      winnersTextOf [] = noParticipantsText ∧
      ((iterDraws gid perm hb db (n + 1)).2).countP isPost = 1 := by
  obtain ⟨hrc, _, _⟩ := claimDraw_success db.giveaways gid hpk hsched
  obtain ⟨g0, hmem, hid, hfetch⟩ := fetch_after_claim db gid hpk hsched
  have hiter := iterDraws_posts_once db gid perm hb n hpk hsched
  refine ⟨g0, hmem, hid, ?_⟩
  obtain ⟨hent, href, hboo⟩ := hempty g0 hmem hid
  subst hid
  have heq : run_draw db g0.id perm hb =
      (save_winners { db with giveaways := (claimDraw db.giveaways g0.id).1 } g0.id [],
       [DrawAct.claimed, DrawAct.persistWinners [], DrawAct.setFinished,
        DrawAct.post (resultsText { g0 with status := "drawing" } [])]) := by
    simp only [run_draw, hrc, hfetch]
    rw [if_neg (by omega : ¬ (1 : Nat) = 0)]
    by_cases hbc : g0.type = "button" ∨ g0.type = "comments"
    · have hcond : ((Giveaway.mk g0.id g0.title g0.winners_count g0.type g0.end_at_utc
          "drawing").type == "button" ||
          (Giveaway.mk g0.id g0.title g0.winners_count g0.type g0.end_at_utc
          "drawing").type == "comments") = true := by
        show (g0.type == "button" || g0.type == "comments") = true
        rcases hbc with h | h <;> simp [h]
      have hpool : get_entries
          { db with giveaways := (claimDraw db.giveaways g0.id).1 } g0.id = [] :=
        get_entries_of_none _ g0.id (hent hbc)
      rw [if_pos hcond, hpool]
      rw [if_pos (by rfl : (List.map (fun e => e.1)
        ([] : List (Nat × String × String))).isEmpty = true)]
      rfl
    · have hcond1 : ¬(((Giveaway.mk g0.id g0.title g0.winners_count g0.type
          g0.end_at_utc "drawing").type == "button" ||
          (Giveaway.mk g0.id g0.title g0.winners_count g0.type g0.end_at_utc
          "drawing").type == "comments") = true) := by
        show ¬((g0.type == "button" || g0.type == "comments") = true)
        simp only [Bool.or_eq_true, beq_iff_eq]
        exact hbc
      rw [if_neg hcond1]
      by_cases hrf : g0.type = "referrals"
      · have hcond2 : ((Giveaway.mk g0.id g0.title g0.winners_count g0.type
            g0.end_at_utc "drawing").type == "referrals") = true := by
          show (g0.type == "referrals") = true
          simp [hrf]
        have htop : referral_top
            { db with giveaways := (claimDraw db.giveaways g0.id).1 } g0.id = [] :=
          referral_top_of_none _ g0.id (href hrf)
        rw [if_pos hcond2, htop]
        rw [if_pos (by rfl : ([] : List (Nat × Nat)).isEmpty = true)]
        rfl
      · have hcond2 : ¬(((Giveaway.mk g0.id g0.title g0.winners_count g0.type
            g0.end_at_utc "drawing").type == "referrals") = true) := by
          show ¬((g0.type == "referrals") = true)
          simp [hrf]
        rw [if_neg hcond2]
        by_cases hbo : g0.type = "boosts"
        · have hcond3 : ((Giveaway.mk g0.id g0.title g0.winners_count g0.type
              g0.end_at_utc "drawing").type == "boosts") = true := by
            show (g0.type == "boosts") = true
            simp [hbo]
          have hfil : ((get_entries
              { db with giveaways := (claimDraw db.giveaways g0.id).1 } g0.id).map
              (fun e => e.1)).filter hb = [] :=
            boost_pool_of_none _ g0.id hb (hboo hbo)
          rw [if_pos hcond3, hfil]
          rw [if_pos (by rfl : ([] : List Nat).isEmpty = true)]
          rfl
        · have hcond3 : ¬(((Giveaway.mk g0.id g0.title g0.winners_count g0.type
              g0.end_at_utc "drawing").type == "boosts") = true) := by
            show ¬((g0.type == "boosts") = true)
            simp [hbo]
          rw [if_neg hcond3]
          rfl
  refine ⟨heq, ?_, rfl, hiter⟩
  rw [heq]
  exact get_winners_save_empty _ g0.id

/-- Witness for C8 as amended, exercising three empty-pool kinds: a button
campaign with zero entrants, a referral campaign with zero referrers, and a
boosts campaign whose sole entrant fails the draw-time boost check. -/
theorem C8_empty_pool_draw_witness :
    (∃ g0 ∈ (⟨[⟨4, "E", 3, "button", 10, "scheduled"⟩], [⟨9, 7, "u", "f"⟩], [], []⟩ :
        DB).giveaways, g0.id = 4 ∧
      run_draw ⟨[⟨4, "E", 3, "button", 10, "scheduled"⟩], [⟨9, 7, "u", "f"⟩], [], []⟩
          4 (fun l => l) (fun _ => false) =
        (save_winners { (⟨[⟨4, "E", 3, "button", 10, "scheduled"⟩], [⟨9, 7, "u", "f"⟩],
            [], []⟩ : DB) with
          giveaways := (claimDraw [⟨4, "E", 3, "button", 10, "scheduled"⟩] 4).1 } 4 [],
         [DrawAct.claimed, DrawAct.persistWinners [], DrawAct.setFinished,
          DrawAct.post (resultsText { g0 with status := "drawing" } [])]) ∧
      get_winners (run_draw ⟨[⟨4, "E", 3, "button", 10, "scheduled"⟩],
          [⟨9, 7, "u", "f"⟩], [], []⟩ 4 (fun l => l) (fun _ => false)).1 4 = [] ∧
      winnersTextOf [] = noParticipantsText ∧
      ((iterDraws 4 (fun l => l) (fun _ => false)
          ⟨[⟨4, "E", 3, "button", 10, "scheduled"⟩], [⟨9, 7, "u", "f"⟩], [], []⟩
          (2 + 1)).2).countP isPost = 1) ∧
    (∃ g0 ∈ (⟨[⟨5, "R", 2, "referrals", 10, "scheduled"⟩], [], [⟨6, 1, 2⟩], []⟩ :
        DB).giveaways, g0.id = 5 ∧
      run_draw ⟨[⟨5, "R", 2, "referrals", 10, "scheduled"⟩], [], [⟨6, 1, 2⟩], []⟩
          5 (fun l => l) (fun _ => false) =
        (save_winners { (⟨[⟨5, "R", 2, "referrals", 10, "scheduled"⟩], [], [⟨6, 1, 2⟩],
            []⟩ : DB) with
          giveaways := (claimDraw [⟨5, "R", 2, "referrals", 10, "scheduled"⟩] 5).1 } 5 [],
         [DrawAct.claimed, DrawAct.persistWinners [], DrawAct.setFinished,
          DrawAct.post (resultsText { g0 with status := "drawing" } [])]) ∧
      get_winners (run_draw ⟨[⟨5, "R", 2, "referrals", 10, "scheduled"⟩], [],
          [⟨6, 1, 2⟩], []⟩ 5 (fun l => l) (fun _ => false)).1 5 = [] ∧
      winnersTextOf [] = noParticipantsText ∧
      ((iterDraws 5 (fun l => l) (fun _ => false)
          ⟨[⟨5, "R", 2, "referrals", 10, "scheduled"⟩], [], [⟨6, 1, 2⟩], []⟩
          (1 + 1)).2).countP isPost = 1) ∧
    (∃ g0 ∈ (⟨[⟨6, "B", 1, "boosts", 10, "scheduled"⟩], [⟨6, 7, "u", "f"⟩], [], []⟩ :
        DB).giveaways, g0.id = 6 ∧
      run_draw ⟨[⟨6, "B", 1, "boosts", 10, "scheduled"⟩], [⟨6, 7, "u", "f"⟩], [], []⟩
          6 (fun l => l) (fun _ => false) =
        (save_winners { (⟨[⟨6, "B", 1, "boosts", 10, "scheduled"⟩], [⟨6, 7, "u", "f"⟩],
            [], []⟩ : DB) with
          giveaways := (claimDraw [⟨6, "B", 1, "boosts", 10, "scheduled"⟩] 6).1 } 6 [],
         [DrawAct.claimed, DrawAct.persistWinners [], DrawAct.setFinished,
          DrawAct.post (resultsText { g0 with status := "drawing" } [])]) ∧
      get_winners (run_draw ⟨[⟨6, "B", 1, "boosts", 10, "scheduled"⟩],
          [⟨6, 7, "u", "f"⟩], [], []⟩ 6 (fun l => l) (fun _ => false)).1 6 = [] ∧
      winnersTextOf [] = noParticipantsText ∧
      ((iterDraws 6 (fun l => l) (fun _ => false)
          ⟨[⟨6, "B", 1, "boosts", 10, "scheduled"⟩], [⟨6, 7, "u", "f"⟩], [], []⟩
          (1 + 1)).2).countP isPost = 1) :=
  ⟨C8_empty_pool_draw ⟨[⟨4, "E", 3, "button", 10, "scheduled"⟩], [⟨9, 7, "u", "f"⟩],
      [], []⟩ 4 (fun l => l) (fun _ => false) 2 (by decide) (by decide) (by decide),
   C8_empty_pool_draw ⟨[⟨5, "R", 2, "referrals", 10, "scheduled"⟩], [], [⟨6, 1, 2⟩],
      []⟩ 5 (fun l => l) (fun _ => false) 1 (by decide) (by decide) (by decide),
   C8_empty_pool_draw ⟨[⟨6, "B", 1, "boosts", 10, "scheduled"⟩], [⟨6, 7, "u", "f"⟩],
      [], []⟩ 6 (fun l => l) (fun _ => false) 1 (by decide) (by decide) (by decide)⟩

theorem take_append_take {α : Type} (l t : List α) (n : Nat) :
    (l.take n ++ t).take n = (l ++ t).take n := by
  rw [List.take_append_eq_append_take, List.take_append_eq_append_take,
      List.take_take, Nat.min_self, List.length_take]
  have h : n - min n l.length = n - l.length := by omega
  rw [h]

theorem take_clamp {α : Type} (b : List α) (need : Nat) :
    (if b.length > need then b.take need else b) = b.take need := by
  split
  · rfl
  · next h => rw [List.take_of_length_le (by omega)]

theorem fillLoop_eq_take (k : Nat) (buckets : List (Nat × List Nat))
    (shuffle : List Nat → List Nat) :
    ∀ (counts : List Nat) (sel : List Nat), sel.length ≤ k →
    fillLoop k buckets shuffle sel counts =
      (sel ++ (counts.map (fun c => shuffle (bucketOf buckets c))).flatten).take k := by
  intro counts
  induction counts with
  | nil =>
    intro sel h
    simp only [fillLoop, List.map_nil, List.flatten_nil, List.append_nil]
    rw [List.take_of_length_le h]
  | cons c rest ih =>
    intro sel h
    simp only [fillLoop, List.map_cons, List.flatten_cons]
    by_cases h0 : k - sel.length = 0
    · rw [if_pos h0]
      have hlen : sel.length = k := by omega
      rw [List.take_append_eq_append_take, List.take_of_length_le (by omega), hlen,
          Nat.sub_self, List.take_zero, List.append_nil]
    · rw [if_neg h0, take_clamp]
      have h2 : (sel ++ (shuffle (bucketOf buckets c)).take (k - sel.length)).length ≤ k := by
        rw [List.length_append, List.length_take]
        omega
      rw [ih _ h2]
      rw [List.append_assoc]
      rw [@List.take_append_eq_append_take _ sel _ _,
          @List.take_append_eq_append_take _ sel _ _]
      congr 1
      exact take_append_take _ _ _

theorem referralSelect_eq (top : List (Nat × Nat)) (k : Nat)
    (shuffle : List Nat → List Nat) :
    referralSelect top k shuffle =
      (((List.insertionSort natDesc ((referralBuckets top).map (fun b => b.1))).map
        (fun c => shuffle (bucketOf (referralBuckets top) c))).flatten).take k := by
  unfold referralSelect
  rw [fillLoop_eq_take k _ shuffle _ [] (by simp)]
  rw [List.nil_append, List.take_take, Nat.min_self]

theorem bucketStep_keys_nodup (acc : List (Nat × List Nat)) (p : Nat × Nat)
    (h : ((acc.map (fun b => b.1)).Nodup)) :
    (((bucketStep acc p).map (fun b => b.1)).Nodup) := by
  unfold bucketStep
  split
  · rw [List.map_map]
    have : ((fun b : Nat × List Nat => b.1) ∘
        (fun b : Nat × List Nat => if b.1 == p.2 then (b.1, b.2 ++ [p.1]) else b)) =
        (fun b : Nat × List Nat => b.1) := by
      funext b
      by_cases hc : (b.1 == p.2) = true
      · simp only [Function.comp_apply, if_pos hc]
      · simp only [Function.comp_apply, if_neg hc]
    rw [this]
    exact h
  · next hany =>
    rw [List.map_append]
    rw [List.nodup_append]
    refine ⟨h, List.nodup_singleton _, ?_⟩
    intro a ha
    rw [List.mem_map] at ha
    obtain ⟨b, hb, rfl⟩ := ha
    simp only [List.map_cons, List.map_nil, List.mem_singleton]
    intro hEq
    apply hany
    rw [List.any_eq_true]
    exact ⟨b, hb, by simp [hEq]⟩

theorem referralBuckets_keys_nodup_aux (top : List (Nat × Nat)) :
    ∀ acc : List (Nat × List Nat), ((acc.map (fun b => b.1)).Nodup) →
    (((top.foldl bucketStep acc).map (fun b => b.1)).Nodup) := by
  induction top with
  | nil => intro acc h; exact h
  | cons p rest ih =>
    intro acc h
    exact ih (bucketStep acc p) (bucketStep_keys_nodup acc p h)

theorem referralBuckets_keys_nodup (top : List (Nat × Nat)) :
    (((referralBuckets top).map (fun b => b.1)).Nodup) :=
  referralBuckets_keys_nodup_aux top [] (by simp)

theorem bucketOf_keys (buckets : List (Nat × List Nat))
    (hnd : ((buckets.map (fun b => b.1)).Nodup)) :
    (buckets.map (fun b => b.1)).map (fun c => bucketOf buckets c) =
      buckets.map (fun b => b.2) := by
  induction buckets with
  | nil => rfl
  | cons b rest ih =>
    simp only [List.map_cons] at hnd ⊢
    rw [List.nodup_cons] at hnd
    congr 1
    · unfold bucketOf
      rw [List.find?_cons_of_pos _ (by simp)]
      rfl
    · have hsame : ∀ c ∈ rest.map (fun b => b.1),
          bucketOf (b :: rest) c = bucketOf rest c := by
        intro c hc
        unfold bucketOf
        rw [List.find?_cons_of_neg]
        simp only [beq_iff_eq]
        intro hbc
        exact hnd.1 (hbc ▸ hc)
      rw [List.map_congr_left hsame, ih hnd.2]

theorem modify_map_id (l : List (Nat × List Nat)) (c x : Nat)
    (h : ∀ b ∈ l, (b.1 == c) = false) :
    l.map (fun b => if b.1 == c then (b.1, b.2 ++ [x]) else b) = l := by
  conv_rhs => rw [← List.map_id l]
  apply List.map_congr_left
  intro b hb
  rw [h b hb]
  rfl

theorem append_singleton_perm {α : Type} (l t : List α) (x : α) :
    ((l ++ [x]) ++ t).Perm ((l ++ t) ++ [x]) := by
  rw [List.append_assoc, List.append_assoc]
  exact List.Perm.append_left l List.perm_append_comm

theorem modify_flatten_perm (acc : List (Nat × List Nat)) (c x : Nat)
    (hnd : ((acc.map (fun b => b.1)).Nodup))
    (hmem : acc.any (fun b => b.1 == c) = true) :
    (((acc.map (fun b => if b.1 == c then (b.1, b.2 ++ [x]) else b)).map
      (fun b => b.2)).flatten).Perm
      (((acc.map (fun b => b.2)).flatten) ++ [x]) := by
  induction acc with
  | nil => simp at hmem
  | cons b rest ih =>
    simp only [List.map_cons] at hnd
    rw [List.nodup_cons] at hnd
    simp only [List.map_cons, List.flatten_cons]
    by_cases hc : (b.1 == c) = true
    · have hrest : ∀ b2 ∈ rest, (b2.1 == c) = false := by
        intro b2 hb2
        by_contra hb2c
        rw [Bool.not_eq_false, beq_iff_eq] at hb2c
        apply hnd.1
        rw [List.mem_map]
        refine ⟨b2, hb2, ?_⟩
        rw [hb2c]
        exact (beq_iff_eq.mp hc).symm
      rw [if_pos hc, modify_map_id rest c x hrest]
      exact append_singleton_perm b.2 _ x
    · rw [if_neg hc]
      have hmem2 : rest.any (fun b => b.1 == c) = true := by
        rw [List.any_cons, Bool.or_eq_true] at hmem
        rcases hmem with h1 | h2
        · exact absurd h1 hc
        · exact h2
      rw [List.append_assoc]
      exact List.Perm.append_left b.2 (ih hnd.2 hmem2)

theorem flatten_foldl_perm (top : List (Nat × Nat)) :
    ∀ acc : List (Nat × List Nat), ((acc.map (fun b => b.1)).Nodup) →
    (((top.foldl bucketStep acc).map (fun b => b.2)).flatten).Perm
      (((acc.map (fun b => b.2)).flatten) ++ top.map (fun p => p.1)) := by
  induction top with
  | nil =>
    intro acc h
    simp only [List.foldl_nil, List.map_nil, List.append_nil]
    exact List.Perm.refl _
  | cons p rest ih =>
    intro acc h
    simp only [List.foldl_cons, List.map_cons]
    have hstep : (((bucketStep acc p).map (fun b => b.2)).flatten).Perm
        (((acc.map (fun b => b.2)).flatten) ++ [p.1]) := by
      unfold bucketStep
      split
      · next hany => exact modify_flatten_perm acc p.2 p.1 h hany
      · rw [List.map_append, List.flatten_append]
        simp only [List.map_cons, List.map_nil, List.flatten_cons, List.flatten_nil,
          List.append_nil]
        exact List.Perm.refl _
    have ihstep := ih (bucketStep acc p) (bucketStep_keys_nodup acc p h)
    refine ihstep.trans ?_
    refine (List.Perm.append_right (rest.map (fun p => p.1)) hstep).trans ?_
    rw [List.append_assoc]
    exact List.Perm.refl _

theorem referralBuckets_flatten_perm (top : List (Nat × Nat)) :
    (((referralBuckets top).map (fun b => b.2)).flatten).Perm
      (top.map (fun p => p.1)) := by
  have h := flatten_foldl_perm top [] (by simp)
  simpa using h

theorem referralSelect_concat_perm (top : List (Nat × Nat))
    (shuffle : List Nat → List Nat) (hsh : ∀ l, (shuffle l).Perm l) :
    (((List.insertionSort natDesc ((referralBuckets top).map (fun b => b.1))).map
      (fun c => shuffle (bucketOf (referralBuckets top) c))).flatten).Perm
      (top.map (fun p => p.1)) := by
  have h1 : ∀ keys : List Nat,
      ((keys.map (fun c => shuffle (bucketOf (referralBuckets top) c))).flatten).Perm
        ((keys.map (fun c => bucketOf (referralBuckets top) c)).flatten) := by
    intro keys
    induction keys with
    | nil => exact List.Perm.refl _
    | cons c rest ih =>
      simp only [List.map_cons, List.flatten_cons]
      exact List.Perm.append (hsh _) ih
  refine (h1 _).trans ?_
  have h2 : (List.insertionSort natDesc ((referralBuckets top).map (fun b => b.1))).Perm
      ((referralBuckets top).map (fun b => b.1)) := List.perm_insertionSort _ _
  refine ((h2.map (fun c => bucketOf (referralBuckets top) c)).flatten).trans ?_
  rw [bucketOf_keys _ (referralBuckets_keys_nodup top)]
  exact referralBuckets_flatten_perm top

theorem sample_take_properties (pool : List Nat) (j : Nat)
    (perm : List Nat → List Nat) (hperm : ∀ l, (perm l).Perm l)
    (hpool : pool.Nodup) (hj : j ≤ pool.length) :
    ((perm pool).take j).Nodup ∧ ((perm pool).take j).length = j ∧
    ∀ u ∈ (perm pool).take j, u ∈ pool := by
  have hp := hperm pool
  refine ⟨?_, ?_, ?_⟩
  · exact List.Nodup.sublist (List.take_sublist _ _) (hp.symm.nodup hpool)
  · rw [List.length_take, hp.length_eq]
    omega
  · intro u hu
    exact hp.mem_iff.mp ((List.take_sublist _ _).subset hu)

theorem referralSelect_properties (top : List (Nat × Nat)) (k : Nat)
    (shuffle : List Nat → List Nat) (hsh : ∀ l, (shuffle l).Perm l)
    (htop : ((top.map (fun p => p.1)).Nodup)) :
    (referralSelect top k shuffle).Nodup ∧
    (referralSelect top k shuffle).length = min k top.length ∧
    ∀ u ∈ referralSelect top k shuffle, u ∈ top.map (fun p => p.1) := by
  have hc := referralSelect_concat_perm top shuffle hsh
  rw [referralSelect_eq]
  refine ⟨?_, ?_, ?_⟩
  · exact List.Nodup.sublist (List.take_sublist _ _) (hc.symm.nodup htop)
  · rw [List.length_take, hc.length_eq, List.length_map]
  · intro u hu
    exact hc.mem_iff.mp ((List.take_sublist _ _).subset hu)

/-- Claim C6: for every campaign type the selected winners list consists of
unique ids drawn from that type's pool and has length `min(k, pool)` — with
the boosts type capped at `min(k, 200, pool)`; the referral pool is the list
of distinct referrers. -/
theorem C6_winner_list_properties (pool : List Nat) (top : List (Nat × Nat)) (k : Nat)
    (perm : List Nat → List Nat)
    (hperm : ∀ l, (perm l).Perm l)
    (hpool : pool.Nodup)
    (htop : ((top.map (fun p => p.1)).Nodup)) :
    (((perm pool).take (min k pool.length)).Nodup ∧
     ((perm pool).take (min k pool.length)).length = min k pool.length ∧
     ∀ u ∈ (perm pool).take (min k pool.length), u ∈ pool) ∧
    (((perm pool).take (min k (min 200 pool.length))).Nodup ∧
     ((perm pool).take (min k (min 200 pool.length))).length =
       min k (min 200 pool.length) ∧
     ∀ u ∈ (perm pool).take (min k (min 200 pool.length)), u ∈ pool) ∧
    ((referralSelect top k perm).Nodup ∧
     (referralSelect top k perm).length = min k top.length ∧
     ∀ u ∈ referralSelect top k perm, u ∈ top.map (fun p => p.1)) :=
  ⟨sample_take_properties pool (min k pool.length) perm hperm hpool (by omega),
   sample_take_properties pool (min k (min 200 pool.length)) perm hperm hpool (by omega),
   referralSelect_properties top k perm hperm htop⟩

/-- Witness for C6: a pool of 5 entrants with `winners_count = 10` yields
exactly 5 winners, each pool member exactly once; the boosts cap and the
referral pool behave likewise. -/
theorem C6_winner_list_properties_witness :
    ((((fun l => l) [1, 2, 3, 4, 5] : List Nat).take (min 10 5)).Nodup ∧
     (((fun l => l) [1, 2, 3, 4, 5] : List Nat).take (min 10 5)).length = min 10 5 ∧
     ∀ u ∈ (((fun l => l) [1, 2, 3, 4, 5] : List Nat).take (min 10 5)),
       u ∈ ([1, 2, 3, 4, 5] : List Nat)) ∧
    ((((fun l => l) [1, 2, 3, 4, 5] : List Nat).take (min 10 (min 200 5))).Nodup ∧
     (((fun l => l) [1, 2, 3, 4, 5] : List Nat).take (min 10 (min 200 5))).length =
       min 10 (min 200 5) ∧
     ∀ u ∈ (((fun l => l) [1, 2, 3, 4, 5] : List Nat).take (min 10 (min 200 5))),
       u ∈ ([1, 2, 3, 4, 5] : List Nat)) ∧
    ((referralSelect [(8, 2), (9, 1)] 10 (fun l => l)).Nodup ∧
     (referralSelect [(8, 2), (9, 1)] 10 (fun l => l)).length =
       min 10 ([(8, 2), (9, 1)] : List (Nat × Nat)).length ∧
     ∀ u ∈ referralSelect [(8, 2), (9, 1)] 10 (fun l => l),
       u ∈ ([(8, 2), (9, 1)] : List (Nat × Nat)).map (fun p => p.1)) :=
  C6_winner_list_properties [1, 2, 3, 4, 5] [(8, 2), (9, 1)] 10 (fun l => l)
    (fun l => List.Perm.refl l) (by decide) (by decide)

theorem perm_pair_cases {α : Type} (l : List α) (a b : α) (h : l.Perm [a, b]) :
    l = [a, b] ∨ l = [b, a] := by
  have hlen := h.length_eq
  match l, h, hlen with
  | [x, y], h, _ =>
    have hx : x ∈ [a, b] := h.mem_iff.mp (by simp)
    rw [List.mem_pair] at hx
    rcases hx with hxa | hxb
    · left
      rw [hxa] at h
      have h2 : [y] = [b] := List.perm_singleton.mp ((List.perm_cons a).mp h)
      rw [List.cons.injEq] at h2
      rw [hxa, h2.1]
    · right
      rw [hxb] at h
      have hswap : ([b, y] : List α).Perm [b, a] :=
        h.trans (List.Perm.swap b a [])
      have h2 : [y] = [a] := List.perm_singleton.mp ((List.perm_cons b).mp hswap)
      rw [List.cons.injEq] at h2
      rw [hxb, h2.1]

/-- Claim C5: the referral draw fills the winners list by walking the
referred-count buckets in descending order with intra-bucket shuffling and
truncates at `winners_count` (the take-of-concatenation form); in particular
for counts `{A:3, B:3, C:1}` the single winner for `k = 1` is `A` or `B`
(never `C`), and for `k = 2` the winners are exactly `{A, B}` in some
order. -/
theorem C5_referral_tiebreak (top : List (Nat × Nat)) (k : Nat)
    (shuffle : List Nat → List Nat) (hsh : ∀ l, (shuffle l).Perm l) :
    (referralSelect top k shuffle =
      (((List.insertionSort natDesc ((referralBuckets top).map (fun b => b.1))).map
        (fun c => shuffle (bucketOf (referralBuckets top) c))).flatten).take k) ∧
    (∀ a b c : Nat, top = [(a, 3), (b, 3), (c, 1)] →
      (referralSelect top 1 shuffle = [a] ∨ referralSelect top 1 shuffle = [b]) ∧
      (referralSelect top 2 shuffle).Perm [a, b]) := by
  refine ⟨referralSelect_eq top k shuffle, ?_⟩
  intro a b c htop
  subst htop
  have key : ∀ j, referralSelect [(a, 3), (b, 3), (c, 1)] j shuffle =
      (shuffle [a, b] ++ (shuffle [c] ++ [])).take j := by
    intro j
    rw [referralSelect_eq]
    rfl
  rcases perm_pair_cases (shuffle [a, b]) a b (hsh [a, b]) with hs | hs
  · constructor
    · left
      rw [key 1, hs]
      rfl
    · rw [key 2, hs]
      have htake : (([a, b] : List Nat) ++ (shuffle [c] ++ [])).take 2 = [a, b] := rfl
      rw [htake]
  · constructor
    · right
      rw [key 1, hs]
      rfl
    · rw [key 2, hs]
      have htake : (([b, a] : List Nat) ++ (shuffle [c] ++ [])).take 2 = [b, a] := rfl
      rw [htake]
      exact List.Perm.swap a b []

/-- Witness for C5 at the identity shuffle and counts `{7:3, 8:3, 9:1}`. -/
theorem C5_referral_tiebreak_witness :
    (referralSelect [(7, 3), (8, 3), (9, 1)] 2 (fun l => l) =
      (((List.insertionSort natDesc
        ((referralBuckets [(7, 3), (8, 3), (9, 1)]).map (fun b => b.1))).map
        (fun c => (fun l => l) (bucketOf (referralBuckets [(7, 3), (8, 3), (9, 1)]) c))).flatten).take
        2) ∧
    (∀ a b c : Nat, ([(7, 3), (8, 3), (9, 1)] : List (Nat × Nat)) = [(a, 3), (b, 3), (c, 1)] →
      (referralSelect [(7, 3), (8, 3), (9, 1)] 1 (fun l => l) = [a] ∨
       referralSelect [(7, 3), (8, 3), (9, 1)] 1 (fun l => l) = [b]) ∧
      (referralSelect [(7, 3), (8, 3), (9, 1)] 2 (fun l => l)).Perm [a, b]) :=
  C5_referral_tiebreak [(7, 3), (8, 3), (9, 1)] 2 (fun l => l)
    (fun l => List.Perm.refl l)

theorem scanPair_gotHash (st : InitScan) (kv : String × String) :
    (scanPair st kv).gotHash = if kv.1 == "hash" then some kv.2 else st.gotHash := by
  unfold scanPair
  by_cases h1 : (kv.1 == "hash") = true <;> by_cases h2 : (kv.1 == "user") = true <;>
    by_cases h3 : (kv.1 == "auth_date") = true <;> simp [h1, h2, h3]

theorem scanPair_authDate (st : InitScan) (kv : String × String) :
    (scanPair st kv).authDate = if kv.1 == "auth_date" then pyInt kv.2 else st.authDate := by
  unfold scanPair
  by_cases h1 : (kv.1 == "hash") = true <;> by_cases h2 : (kv.1 == "user") = true <;>
    by_cases h3 : (kv.1 == "auth_date") = true <;> simp [h1, h2, h3]

theorem initScan_gotHash_none_aux (ps : List (String × String)) :
    ∀ st : InitScan, (∀ kv ∈ ps, kv.1 ≠ "hash") →
    (ps.foldl scanPair st).gotHash = st.gotHash := by
  induction ps with
  | nil => intro st _; rfl
  | cons kv rest ih =>
    intro st hall
    rw [List.foldl_cons, ih _ (fun kv2 hm => hall kv2 (List.mem_cons_of_mem _ hm)),
        scanPair_gotHash]
    rw [if_neg ?_]
    simp only [beq_iff_eq]
    exact hall kv (List.mem_cons_self kv rest)

theorem initScan_authDate_none_aux (ps : List (String × String)) :
    ∀ st : InitScan, (∀ kv ∈ ps, kv.1 ≠ "auth_date") →
    (ps.foldl scanPair st).authDate = st.authDate := by
  induction ps with
  | nil => intro st _; rfl
  | cons kv rest ih =>
    intro st hall
    rw [List.foldl_cons, ih _ (fun kv2 hm => hall kv2 (List.mem_cons_of_mem _ hm)),
        scanPair_authDate]
    rw [if_neg ?_]
    simp only [beq_iff_eq]
    exact hall kv (List.mem_cons_self kv rest)

theorem validate_no_hash (pairs : List (String × String)) (calcHash : String → String)
    (parseUserId : String → Option Int) (now : Int)
    (h : ∀ kv ∈ pairs, kv.1 ≠ "hash") :
    validate_webapp_init pairs calcHash parseUserId now =
      (none, "no_hash", (initScan pairs).authDate) := by
  have hgot : (initScan pairs).gotHash = none :=
    initScan_gotHash_none_aux pairs _ h
  simp only [validate_webapp_init, hgot]

theorem validate_bad_sig (pairs : List (String × String)) (calcHash : String → String)
    (parseUserId : String → Option Int) (now : Int) (h : String)
    (hgot : (initScan pairs).gotHash = some h) (hne : h ≠ "")
    (hmis : calcHash (dataCheckString (initScan pairs).filtered) ≠ h) :
    validate_webapp_init pairs calcHash parseUserId now =
      (none, "bad_signature", (initScan pairs).authDate) := by
  simp only [validate_webapp_init, hgot]
  rw [if_neg hne, if_pos hmis]

theorem validate_stale (pairs : List (String × String)) (calcHash : String → String)
    (parseUserId : String → Option Int) (now : Int) (h : String) (ad : Int)
    (hgot : (initScan pairs).gotHash = some h) (hne : h ≠ "")
    (hsig : calcHash (dataCheckString (initScan pairs).filtered) = h)
    (had : (initScan pairs).authDate = some ad) (hold : now - ad > 180) :
    validate_webapp_init pairs calcHash parseUserId now = (none, "stale", some ad) := by
  simp only [validate_webapp_init, hgot, had]
  rw [if_neg hne, if_neg (not_not_intro hsig), if_pos (by simpa using hold)]

theorem validate_bad_user (pairs : List (String × String)) (calcHash : String → String)
    (parseUserId : String → Option Int) (now : Int) (h : String)
    (hgot : (initScan pairs).gotHash = some h) (hne : h ≠ "")
    (hsig : calcHash (dataCheckString (initScan pairs).filtered) = h)
    (hfresh : ∀ ad, (initScan pairs).authDate = some ad → now - ad ≤ 180)
    (huser : (initScan pairs).userJson = none ∨ (initScan pairs).userJson = some "" ∨
      (∃ uj, (initScan pairs).userJson = some uj ∧ parseUserId uj = none)) :
    validate_webapp_init pairs calcHash parseUserId now =
      (none, "bad_user", (initScan pairs).authDate) := by
  have hcond : (match (initScan pairs).authDate with
      | some ad => decide (now - ad > 180)
      | none => false) = false := by
    cases had : (initScan pairs).authDate with
    | none => rfl
    | some ad =>
      have := hfresh ad had
      simp only [decide_eq_false_iff_not]
      omega
  simp only [validate_webapp_init, hgot, hcond]
  rw [if_neg hne, if_neg (not_not_intro hsig), if_neg (by simp)]
  rcases huser with hu | hu | ⟨uj, hu, hp⟩
  · simp only [hu]
  · simp only [hu]
    simp
  · simp only [hu]
    by_cases hiuje : uj = ""
    · rw [if_pos hiuje]
    · rw [if_neg hiuje]
      simp only [hp]

theorem validate_accept (pairs : List (String × String)) (calcHash : String → String)
    (parseUserId : String → Option Int) (now : Int) (h uj : String) (uid : Int)
    (hgot : (initScan pairs).gotHash = some h) (hne : h ≠ "")
    (hsig : calcHash (dataCheckString (initScan pairs).filtered) = h)
    (hfresh : ∀ ad, (initScan pairs).authDate = some ad → now - ad ≤ 180)
    (huser : (initScan pairs).userJson = some uj) (hune : uj ≠ "")
    (hparse : parseUserId uj = some uid) :
    validate_webapp_init pairs calcHash parseUserId now =
      (some uid, "ok", (initScan pairs).authDate) := by
  have hcond : (match (initScan pairs).authDate with
      | some ad => decide (now - ad > 180)
      | none => false) = false := by
    cases had : (initScan pairs).authDate with
    | none => rfl
    | some ad =>
      have := hfresh ad had
      simp only [decide_eq_false_iff_not]
      omega
  simp only [validate_webapp_init, hgot, hcond, huser, hparse]
  rw [if_neg hne, if_neg (not_not_intro hsig), if_neg (by simp), if_neg hune]

/-- Claim C4: the Mini-App auth validator rejects when the signature field is
absent, when the keyed hash computed over the canonical string (non-signature
pairs sorted lexicographically by key, joined as newline-separated
`key=value`) differs from the supplied signature, when the declared
`auth_date` is older than the 180-second freshness window, and when the
embedded `user` field is missing, empty or unparsable; otherwise it accepts
and returns the authenticated numeric user id. -/
theorem C4_validator_accept_reject (pairs : List (String × String))
    (calcHash : String → String) (parseUserId : String → Option Int) (now : Int) :
    ((∀ kv ∈ pairs, kv.1 ≠ "hash") →
      validate_webapp_init pairs calcHash parseUserId now =
        (none, "no_hash", (initScan pairs).authDate)) ∧
    (∀ h, (initScan pairs).gotHash = some h → h ≠ "" →
      calcHash (dataCheckString (initScan pairs).filtered) ≠ h →
      validate_webapp_init pairs calcHash parseUserId now =
        (none, "bad_signature", (initScan pairs).authDate)) ∧
    (∀ h ad, (initScan pairs).gotHash = some h → h ≠ "" →
      calcHash (dataCheckString (initScan pairs).filtered) = h →
      (initScan pairs).authDate = some ad → now - ad > 180 →
      validate_webapp_init pairs calcHash parseUserId now = (none, "stale", some ad)) ∧
    (∀ h, (initScan pairs).gotHash = some h → h ≠ "" →
      calcHash (dataCheckString (initScan pairs).filtered) = h →
      (∀ ad, (initScan pairs).authDate = some ad → now - ad ≤ 180) →
      ((initScan pairs).userJson = none ∨ (initScan pairs).userJson = some "" ∨
        (∃ uj, (initScan pairs).userJson = some uj ∧ parseUserId uj = none)) →
      validate_webapp_init pairs calcHash parseUserId now =
        (none, "bad_user", (initScan pairs).authDate)) ∧
    (∀ h uj uid, (initScan pairs).gotHash = some h → h ≠ "" →
      calcHash (dataCheckString (initScan pairs).filtered) = h →
      (∀ ad, (initScan pairs).authDate = some ad → now - ad ≤ 180) →
      (initScan pairs).userJson = some uj → uj ≠ "" → parseUserId uj = some uid →
      validate_webapp_init pairs calcHash parseUserId now =
        (some uid, "ok", (initScan pairs).authDate)) :=
  ⟨fun hno => validate_no_hash pairs calcHash parseUserId now hno,
   fun h hgot hne hmis => validate_bad_sig pairs calcHash parseUserId now h hgot hne hmis,
   fun h ad hgot hne hsig had hold =>
     validate_stale pairs calcHash parseUserId now h ad hgot hne hsig had hold,
   fun h hgot hne hsig hfresh huser =>
     validate_bad_user pairs calcHash parseUserId now h hgot hne hsig hfresh huser,
   fun h uj uid hgot hne hsig hfresh huser hune hparse =>
     validate_accept pairs calcHash parseUserId now h uj uid hgot hne hsig hfresh huser
       hune hparse⟩

/-- Witness for C4: a correctly signed concrete payload validates and returns
the user id, and the same payload under a mismatching hash function is
rejected as `bad_signature`. -/
theorem C4_validator_accept_reject_witness :
    validate_webapp_init [("auth_date", "100"), ("user", "u7"), ("hash", "HH")]
        (fun s => if s == "auth_date=100\nuser=u7" then "HH" else "XX")
        (fun s => if s == "u7" then some 7 else none) 200 =
      (some 7, "ok",
        (initScan [("auth_date", "100"), ("user", "u7"), ("hash", "HH")]).authDate) ∧
    validate_webapp_init [("auth_date", "100"), ("user", "u7"), ("hash", "HH")]
        (fun _ => "XX") (fun s => if s == "u7" then some 7 else none) 200 =
      (none, "bad_signature",
        (initScan [("auth_date", "100"), ("user", "u7"), ("hash", "HH")]).authDate) :=
  ⟨(C4_validator_accept_reject [("auth_date", "100"), ("user", "u7"), ("hash", "HH")]
      (fun s => if s == "auth_date=100\nuser=u7" then "HH" else "XX")
      (fun s => if s == "u7" then some 7 else none) 200).2.2.2.2 "HH" "u7" 7
      (by decide) (by decide) (by decide)
      (fun ad had => by
        rw [show (initScan [("auth_date", "100"), ("user", "u7"),
          ("hash", "HH")]).authDate = some 100 from by decide] at had
        injection had with hh
        omega)
      (by decide) (by decide) (by decide),
   (C4_validator_accept_reject [("auth_date", "100"), ("user", "u7"), ("hash", "HH")]
      (fun _ => "XX") (fun s => if s == "u7" then some 7 else none) 200).2.1 "HH"
      (by decide) (by decide) (by decide)⟩

/-- Claim C10: when the payload has no `auth_date` pair, or its (last)
`auth_date` value does not parse as an integer, the scanned `auth_date` is
`None` and the freshness check is skipped entirely: a payload with a valid
signature and parsable identity is accepted at every clock value; staleness is
enforced only when `auth_date` parses. -/
theorem C10_authdate_optional (pairs : List (String × String))
    (calcHash : String → String) (parseUserId : String → Option Int) :
    ((∀ kv ∈ pairs, kv.1 ≠ "auth_date") → (initScan pairs).authDate = none) ∧
    (∀ v, (initScan (pairs ++ [("auth_date", v)])).authDate = pyInt v) ∧
    (∀ h uj uid, (initScan pairs).authDate = none →
      (initScan pairs).gotHash = some h → h ≠ "" →
      calcHash (dataCheckString (initScan pairs).filtered) = h →
      (initScan pairs).userJson = some uj → uj ≠ "" → parseUserId uj = some uid →
      ∀ now : Int, validate_webapp_init pairs calcHash parseUserId now =
        (some uid, "ok", none)) ∧
    (∀ h ad, (initScan pairs).gotHash = some h → h ≠ "" →
      calcHash (dataCheckString (initScan pairs).filtered) = h →
      (initScan pairs).authDate = some ad →
      ∀ now : Int, now - ad > 180 →
        validate_webapp_init pairs calcHash parseUserId now =
          (none, "stale", some ad)) := by
  refine ⟨?_, ?_, ?_, ?_⟩
  · intro hno
    exact initScan_authDate_none_aux pairs _ hno
  · intro v
    show (List.foldl scanPair ⟨none, [], none, none⟩
      (pairs ++ [("auth_date", v)])).authDate = pyInt v
    rw [List.foldl_append]
    show (scanPair _ ("auth_date", v)).authDate = pyInt v
    rw [scanPair_authDate]
    rfl
  · intro h uj uid hnone hgot hne hsig huser hune hparse now
    have hres := validate_accept pairs calcHash parseUserId now h uj uid hgot hne hsig
      (fun ad had => by rw [hnone] at had; exact absurd had (by simp)) huser hune hparse
    rw [hnone] at hres
    exact hres
  · intro h ad hgot hne hsig had now hold
    exact validate_stale pairs calcHash parseUserId now h ad hgot hne hsig had hold

/-- Witness for C10: a payload without `auth_date` scans to `None`, an
unparsable `auth_date` scans to `None`, the accepting run works at an
arbitrarily late clock, and a parsable stale `auth_date` is rejected. -/
theorem C10_authdate_optional_witness :
    (initScan [("user", "u7"), ("hash", "HH")]).authDate = none ∧
    (initScan ([("user", "u7"), ("hash", "HH")] ++ [("auth_date", "abc")])).authDate =
      pyInt "abc" ∧
    validate_webapp_init [("user", "u7"), ("hash", "HH")]
        (fun s => if s == "user=u7" then "HH" else "XX")
        (fun s => if s == "u7" then some 7 else none) 99999 =
      (some 7, "ok", none) ∧
    validate_webapp_init [("auth_date", "100"), ("user", "u7"), ("hash", "HH")]
        (fun s => if s == "auth_date=100\nuser=u7" then "HH" else "XX")
        (fun s => if s == "u7" then some 7 else none) 400 =
      (none, "stale", some 100) :=
  ⟨(C10_authdate_optional [("user", "u7"), ("hash", "HH")]
      (fun s => if s == "user=u7" then "HH" else "XX")
      (fun s => if s == "u7" then some 7 else none)).1 (by decide),
   (C10_authdate_optional [("user", "u7"), ("hash", "HH")]
      (fun s => if s == "user=u7" then "HH" else "XX")
      (fun s => if s == "u7" then some 7 else none)).2.1 "abc",
   (C10_authdate_optional [("user", "u7"), ("hash", "HH")]
      (fun s => if s == "user=u7" then "HH" else "XX")
      (fun s => if s == "u7" then some 7 else none)).2.2.1 "HH" "u7" 7
      (by decide) (by decide) (by decide) (by decide) (by decide) (by decide)
      (by decide) 99999,
   (C10_authdate_optional [("auth_date", "100"), ("user", "u7"), ("hash", "HH")]
      (fun s => if s == "auth_date=100\nuser=u7" then "HH" else "XX")
      (fun s => if s == "u7" then some 7 else none)).2.2.2 "HH" 100
      (by decide) (by decide) (by decide) (by decide) 400 (by omega)⟩
